import Mathlib

/-!
Verification of the named background resource pool from
`pkg/testdb/pristine.go` (package `testdb`).

The Go code is shallowly embedded: each function becomes a pure Lean
function over explicit state, with effect counters recording how many
times each external operation (drop/create/truncate, `createdb`,
`dbutil2.Open`) was performed.  `log.Fatalf` calls become `fatal`
outcomes, the nil-pointer dereference of `*b.schema` becomes a distinct
`panicNilSchema` outcome, and the `int32` identity counter is modelled
as a bit pattern below `2 ^ 32` with two's-complement wraparound.
Schema pointers (`*dbutil2.Schema`) are modelled as an address paired
with an opaque structural value, so that Go pointer comparison (`!=`)
and structural equality can be distinguished.
-/

namespace Testdb

/-- A `*dbutil2.Schema` target: `addr` models the pointer address used by
Go's `!=` comparison, `val` the (opaque) structural content of the schema. -/
structure Schema where
  addr : Nat
  val : Nat
deriving DecidableEq, Repr

/-- A `*dbutil2.Handle` as the pool sees it.  The booleans are the oracle
for whether the external `DropSchema` / `CreateSchema` / `TruncateTables`
operations succeed on this handle. -/
structure DBHandle where
  dropOK : Bool
  createOK : Bool
  truncateOK : Bool
  dataSource : String
deriving DecidableEq, Repr

/-- The ways the `testdb` code terminates the process via `log.Fatal*`. -/
inductive FatalError
  | ConfigError
  | PoolUnavailable
  | SchemaMismatch
  | ProvisionTimeout (timeoutSeconds : Nat)
  | OpenFailed
  | SchemaDropFailed
  | SchemaCreateFailed
  | TruncateFailed
deriving DecidableEq, Repr

/-- State of one `backgroundDBPool`.  `poolId` is a construction token
(identifying the heap object allocated by `&backgroundDBPool{}`), so that
"the registry entry is never replaced" is expressible even though pool
state is threaded by value here.  `nextID` is the `int32` counter's bit
pattern (an invariant keeps it below `2 ^ 32`). -/
structure PoolState where
  poolId : Nat
  schema : Option Schema
  readyDBs : List DBHandle
  queueCap : Nat
  dropped : List Int
  created : List Int
  nextID : Nat
deriving DecidableEq, Repr

/-- The process-wide registry `backgroundDBPoolsByName` plus a counter
producing fresh `poolId` construction tokens. -/
structure Registry where
  pools : List (String × PoolState)
  nextPoolId : Nat
deriving DecidableEq, Repr

def Registry.lookup (r : Registry) (name : String) : Option PoolState :=
  (r.pools.find? (fun e => e.1 == name)).map (fun e => e.2)

def Registry.lookupId (r : Registry) (name : String) : Option Nat :=
  (r.lookup name).map (fun p => p.poolId)

def Registry.insert (r : Registry) (name : String) (p : PoolState) : Registry :=
  { pools := r.pools ++ [(name, p)], nextPoolId := r.nextPoolId + 1 }

/-- In-place mutation of the pool object stored under `name`
(the Go code mutates through the map's pointer). -/
def Registry.setPool (r : Registry) (name : String) (p : PoolState) : Registry :=
  { r with pools := r.pools.map (fun e => if e.1 == name then (e.1, p) else e) }

/-- The package-level flags and the process label, read once. -/
structure Flags where
  dropSchema : Bool
  createSchema : Bool
  truncate : Bool
  verbose : Bool
  initialPoolSize : Nat
  label : String
deriving DecidableEq, Repr

/-! ### prepareDBs: the ledger-guarded preparation pipeline -/

/-- Result of `backgroundDBPool.prepareDBs`: updated ledger, counts of
performed drop/create/truncate operations, and the fatal error if a step
failed (at which point the Go process dies, so later steps never run). -/
structure PrepResult where
  dropped : List Int
  created : List Int
  drops : Nat
  creates : Nat
  truncs : Nat
  fatal : Option FatalError
deriving DecidableEq, Repr

/-- Truncate step of `prepareDBs`: `if truncate { mdb.TruncateTables() ... }`. -/
def prepareDBsTrunc (dropped created : List Int) (drops creates : Nat)
    (mdb : DBHandle) (trunc : Bool) : PrepResult :=
  if trunc then
    if mdb.truncateOK then
      ⟨dropped, created, drops, creates, 1, none⟩
    else
      ⟨dropped, created, drops, creates, 1, some .TruncateFailed⟩
  else
    ⟨dropped, created, drops, creates, 0, none⟩

/-- Create step of `prepareDBs`: `if create && !b.created[id] { ... }`. -/
def prepareDBsCreate (dropped created : List Int) (drops : Nat) (id : Int)
    (mdb : DBHandle) (create trunc : Bool) : PrepResult :=
  if create && !(created.contains id) then
    if mdb.createOK then
      prepareDBsTrunc dropped (id :: created) drops 1 mdb trunc
    else
      ⟨dropped, created, drops, 1, 0, some .SchemaCreateFailed⟩
  else
    prepareDBsTrunc dropped created drops 0 mdb trunc

/-- `backgroundDBPool.prepareDBs(id, mdb, drop, create, truncate)`.
The Go maps `b.dropped` / `b.created` (lookup defaulting to `false`)
become lists of marked identities. -/
def prepareDBs (dropped created : List Int) (id : Int) (mdb : DBHandle)
    (drop create trunc : Bool) : PrepResult :=
  if drop && !(dropped.contains id) then
    if mdb.dropOK then
      prepareDBsCreate (id :: dropped) created 1 id mdb create trunc
    else
      ⟨dropped, created, 1, 0, 0, some .SchemaDropFailed⟩
  else
    prepareDBsCreate dropped created 0 id mdb create trunc

/-! ### start and pristineDBs: registry and acquisition protocol -/

/-- Result of `backgroundDBPool.start`: the initialised pool state, how
many background `prepareNewDB` goroutines were launched, and the fatal
error (empty label) if any. -/
structure StartResult where
  pool : PoolState
  tasksSpawned : Nat
  fatal : Option FatalError
deriving DecidableEq, Repr

/-- `backgroundDBPool.start(poolName, schema)`.  It first binds the
schema, then dies if the process label is empty, then allocates the
ledger maps and the ready channel of capacity `*initialPoolSize`, and
finally spawns `*initialPoolSize` background `prepareNewDB` tasks. -/
def start (flags : Flags) (poolId : Nat) (schema : Option Schema) : StartResult :=
  let p0 : PoolState :=
    { poolId := poolId, schema := schema, readyDBs := [], queueCap := 0,
      dropped := [], created := [], nextID := 0 }
  if flags.label = "" then
    { pool := p0, tasksSpawned := 0, fatal := some .ConfigError }
  else
    { pool := { p0 with queueCap := flags.initialPoolSize },
      tasksSpawned := flags.initialPoolSize, fatal := none }

/-- Go pointer comparison `b.schema != schema` on two `*dbutil2.Schema`
values: `nil` differs from every non-`nil` pointer, and two non-`nil`
pointers differ exactly when their addresses differ. -/
def schemaPtrNe (a b : Option Schema) : Bool :=
  match a, b with
  | none, none => false
  | some x, some y => x.addr != y.addr
  | _, _ => true

/-- `const timeout = 45 * time.Second` in `pristineDBs`, in seconds. -/
def timeoutSeconds : Nat := 45

/-- How a `pristineDBs` call ends: a handle received from the ready
channel, or a `log.Fatalf` termination. -/
inductive AcqOutcome
  | ok (h : DBHandle)
  | fatal (e : FatalError)
deriving DecidableEq, Repr

/-- Result of one `pristineDBs` call: the registry afterwards, the
outcome, how many `prepareNewDB` goroutines the call spawned (both
`start`'s initial batch and the call's own `go b.prepareNewDB`),
whether a `&backgroundDBPool{}` object was constructed, and the
`poolId` of the pool the call operated on. -/
structure AcqResult where
  reg : Registry
  outcome : AcqOutcome
  tasksSpawned : Nat
  poolConstructed : Bool
  usedPoolId : Option Nat
deriving Repr

/-- `pristineDBs(poolName, schema)`.  Under the registry lock it creates
the pool on first use (running `start`), then checks the schema binding,
then spawns one replenishment task and waits on the ready channel with a
45-second timeout.  The wait is modelled against the channel's current
content: a queued handle is returned, an empty queue times out. -/
def pristineDBs (flags : Flags) (reg : Registry) (poolName : String)
    (schema : Option Schema) : AcqResult :=
  let step :=
    match reg.lookup poolName with
    | some _ => (reg, false, 0, (none : Option FatalError))
    | none =>
        let s := start flags reg.nextPoolId schema
        (reg.insert poolName s.pool, true, s.tasksSpawned, s.fatal)
  match step with
  | (reg1, constructed, startTasks, startFatal) =>
    match startFatal with
    | some e =>
        { reg := reg1, outcome := .fatal e, tasksSpawned := startTasks,
          poolConstructed := constructed, usedPoolId := none }
    | none =>
      match reg1.lookup poolName with
      | none =>
          { reg := reg1, outcome := .fatal .PoolUnavailable, tasksSpawned := startTasks,
            poolConstructed := constructed, usedPoolId := none }
      | some b =>
        if schema.isSome && schemaPtrNe b.schema schema then
          { reg := reg1, outcome := .fatal .SchemaMismatch, tasksSpawned := startTasks,
            poolConstructed := constructed, usedPoolId := some b.poolId }
        else
          match b.readyDBs with
          | h :: t =>
              { reg := reg1.setPool poolName { b with readyDBs := t },
                outcome := .ok h, tasksSpawned := startTasks + 1,
                poolConstructed := constructed, usedPoolId := some b.poolId }
          | [] =>
              { reg := reg1, outcome := .fatal (.ProvisionTimeout timeoutSeconds),
                tasksSpawned := startTasks + 1,
                poolConstructed := constructed, usedPoolId := some b.poolId }

/-! ### prepareNewDB: the provisioner -/

/-- Environment of one `prepareNewDB` run: whether the external
`createdb` command fails, what `dbutil2.Open` returns (`none` models an
open error), and the process identifier `os.Getpid()`. -/
structure ProvEnv where
  createdbFails : Bool
  openResult : Option DBHandle
  pid : Nat
deriving DecidableEq, Repr

/-- How a `prepareNewDB` run ends: the prepared handle is pushed onto
the ready channel, the process dies via `log.Fatal`, or the run panics
dereferencing the nil `b.schema` pointer (`*b.schema`). -/
inductive ProvOutcome
  | pushed (h : DBHandle)
  | fatal (e : FatalError)
  | panicNilSchema
deriving DecidableEq, Repr

/-- Result of one `prepareNewDB` run, with counters for how many times
the external `createdb` command and `dbutil2.Open` were invoked. -/
structure ProvResult where
  pool : PoolState
  outcome : ProvOutcome
  id : Int
  dbname : String
  createdbCalls : Nat
  openCalls : Nat
deriving DecidableEq, Repr

/-- The value of Go's `atomic.AddInt32` result: the stored bit pattern
`p < 2 ^ 32` read back as a signed two's-complement `int32`. -/
def int32OfBits (p : Nat) : Int :=
  if p < 2 ^ 31 then (p : Int) else (p : Int) - 2 ^ 32

/-- `fmt.Sprintf("sgtmp-%s-%s-%d-%d", poolName, label, id, os.Getpid())`. -/
def mkDBName (poolName label : String) (id : Int) (pid : Nat) : String :=
  "sgtmp-" ++ poolName ++ "-" ++ label ++ "-" ++ toString id ++ "-" ++ toString pid

/-- `backgroundDBPool.prepareNewDB(poolName)`.  Allocates an identity by
atomically incrementing the `int32` counter, derives the database name,
runs `createdb` discarding its error (`_ = exec.Command(...).Run()`, so
`env.createdbFails` is never read), dereferences `*b.schema` (a runtime
panic when the pool was bound to a nil schema), opens the handle
(process-fatal on error), runs the preparation pipeline, and pushes the
handle onto the ready channel. -/
def prepareNewDB (flags : Flags) (b : PoolState) (poolName : String)
    (env : ProvEnv) : ProvResult :=
  let bits := (b.nextID + 1) % 2 ^ 32
  let id := int32OfBits bits
  let b1 := { b with nextID := bits }
  let dbname := mkDBName poolName flags.label id env.pid
  match b1.schema with
  | none =>
      { pool := b1, outcome := .panicNilSchema, id := id, dbname := dbname,
        createdbCalls := 1, openCalls := 0 }
  | some _ =>
    match env.openResult with
    | none =>
        { pool := b1, outcome := .fatal .OpenFailed, id := id, dbname := dbname,
          createdbCalls := 1, openCalls := 1 }
    | some dbh =>
      let pr := prepareDBs b1.dropped b1.created id dbh
        flags.dropSchema flags.createSchema flags.truncate
      let b2 := { b1 with dropped := pr.dropped, created := pr.created }
      match pr.fatal with
      | some e =>
          { pool := b2, outcome := .fatal e, id := id, dbname := dbname,
            createdbCalls := 1, openCalls := 1 }
      | none =>
          { pool := { b2 with readyDBs := b2.readyDBs ++ [dbh] },
            outcome := .pushed dbh, id := id, dbname := dbname,
            createdbCalls := 1, openCalls := 1 }

/-- The pool state after `k` sequential `prepareNewDB` runs. -/
def runPool (flags : Flags) (poolName : String) (env : ProvEnv)
    (b : PoolState) : Nat → PoolState
  | 0 => b
  | k + 1 => (prepareNewDB flags (runPool flags poolName env b k) poolName env).pool

/-- The identity allocated by the `k`-th (0-based) `prepareNewDB` run. -/
def nthRunId (flags : Flags) (poolName : String) (env : ProvEnv)
    (b : PoolState) (k : Nat) : Int :=
  (prepareNewDB flags (runPool flags poolName env b k) poolName env).id

/-- The registry after a sequence of `pristineDBs` calls. -/
def runCalls (flags : Flags) : Registry → List (String × Option Schema) → Registry
  | reg, [] => reg
  | reg, c :: rest => runCalls flags (pristineDBs flags reg c.1 c.2).reg rest

/-- How many pool objects a sequence of `pristineDBs` calls constructs
and registers under `name`. -/
def constructionsFor (flags : Flags) (name : String) :
    Registry → List (String × Option Schema) → Nat
  | _, [] => 0
  | reg, c :: rest =>
      (if (pristineDBs flags reg c.1 c.2).poolConstructed && c.1 == name then 1 else 0)
      + constructionsFor flags name (pristineDBs flags reg c.1 c.2).reg rest

/-! ### Concrete instances used by witnesses and counterexamples -/

def h0 : DBHandle := ⟨true, true, true, "ds"⟩

def s1 : Schema := ⟨1, 7⟩

/-- Structurally equal to `s1` but a distinct pointer. -/
def s2 : Schema := ⟨2, 7⟩

def F0 : Flags := ⟨true, true, true, false, 8, "svc"⟩

def pool0 : PoolState := ⟨0, some s1, [h0], 8, [], [], 0⟩

/-- A pool bound to a nil schema, as created by a first call passing nil. -/
def poolNil : PoolState := ⟨0, none, [], 8, [], [], 0⟩

def reg0 : Registry := ⟨[], 0⟩

def reg1 : Registry := ⟨[("pkgA", pool0)], 1⟩

def env0 : ProvEnv := ⟨false, some h0, 42⟩

/-! ### Registry lemmas -/

theorem Registry.lookup_insert_self (r : Registry) (name : String) (p : PoolState)
    (h : r.lookup name = none) : (r.insert name p).lookup name = some p := by
  unfold Registry.lookup at h
  unfold Registry.lookup Registry.insert
  simp only [Option.map_eq_none'] at h
  simp [List.find?_append, h]

theorem Registry.lookup_insert_of_ne (r : Registry) (name m : String) (p : PoolState)
    (h : name ≠ m) : (r.insert name p).lookup m = r.lookup m := by
  unfold Registry.lookup Registry.insert
  have hne : (name == m) = false := by simpa using h
  simp [List.find?_append, List.find?_cons, hne]

theorem setListFind_of_match (l : List (String × PoolState)) (name : String)
    (p : PoolState) :
    (l.map (fun e => if e.1 == name then (e.1, p) else e)).find? (fun e => e.1 == name)
      = (l.find? (fun e => e.1 == name)).map (fun e => (e.1, p)) := by
  induction l with
  | nil => rfl
  | cons e l ih =>
    simp only [List.map_cons]
    by_cases he : (e.1 == name) = true
    · simp [List.find?_cons, he, -List.find?_map]
    · rw [Bool.not_eq_true] at he
      simp [List.find?_cons, he, -List.find?_map]
      simpa [-List.find?_map] using ih

theorem setListFind_of_ne (l : List (String × PoolState)) (name m : String)
    (p : PoolState) (h : name ≠ m) :
    (l.map (fun e => if e.1 == name then (e.1, p) else e)).find? (fun e => e.1 == m)
      = l.find? (fun e => e.1 == m) := by
  induction l with
  | nil => rfl
  | cons e l ih =>
    simp only [List.map_cons]
    by_cases he : (e.1 == name) = true
    · have h1 : e.1 = name := by simpa using he
      have hm : (e.1 == m) = false := by simp [h1, h]
      simp [List.find?_cons, he, hm, -List.find?_map]
      simpa [-List.find?_map] using ih
    · rw [Bool.not_eq_true] at he
      by_cases hm : (e.1 == m) = true
      · simp [List.find?_cons, he, hm, -List.find?_map]
      · rw [Bool.not_eq_true] at hm
        simp [List.find?_cons, he, hm, -List.find?_map]
        simpa [-List.find?_map] using ih

theorem Registry.lookup_setPool_self (r : Registry) (name : String)
    (b p : PoolState) (h : r.lookup name = some b) :
    (r.setPool name p).lookup name = some p := by
  unfold Registry.lookup at h
  unfold Registry.lookup Registry.setPool
  simp only [setListFind_of_match]
  rcases hf : r.pools.find? (fun e => e.1 == name) with _ | e
  · rw [hf] at h; simp at h
  · rw [hf]; simp

theorem Registry.lookup_setPool_of_ne (r : Registry) (name m : String)
    (p : PoolState) (h : name ≠ m) :
    (r.setPool name p).lookup m = r.lookup m := by
  unfold Registry.lookup Registry.setPool
  simp only [setListFind_of_ne _ _ _ _ h]

/-! ### Case-analysis lemmas for pristineDBs -/

theorem schemaPtrNe_self (s : Option Schema) : schemaPtrNe s s = false := by
  cases s <;> simp [schemaPtrNe]

/-- A call that finds an existing pool never runs `start`; it checks the
schema binding and then waits on that pool's ready channel. -/
theorem pristineDBs_existing (F : Flags) (reg : Registry) (name : String)
    (schema : Option Schema) (b : PoolState) (hb : reg.lookup name = some b) :
    pristineDBs F reg name schema =
      if (schema.isSome && schemaPtrNe b.schema schema) = true then
        ⟨reg, .fatal .SchemaMismatch, 0, false, some b.poolId⟩
      else
        match b.readyDBs with
        | h :: t => ⟨reg.setPool name { b with readyDBs := t }, .ok h, 1, false, some b.poolId⟩
        | [] => ⟨reg, .fatal (.ProvisionTimeout timeoutSeconds), 1, false, some b.poolId⟩ := by
  unfold pristineDBs
  simp only [hb]

/-- A call that creates the pool (non-empty label): the new pool's ready
channel is empty, its bound schema pointer is the argument itself, so the
call spawns the initial batch plus one task and then times out. -/
theorem pristineDBs_fresh (F : Flags) (reg : Registry) (name : String)
    (schema : Option Schema) (hn : reg.lookup name = none) (hl : F.label ≠ "") :
    pristineDBs F reg name schema =
      { reg := reg.insert name (start F reg.nextPoolId schema).pool,
        outcome := .fatal (.ProvisionTimeout timeoutSeconds),
        tasksSpawned := F.initialPoolSize + 1,
        poolConstructed := true,
        usedPoolId := some reg.nextPoolId } := by
  have hs : start F reg.nextPoolId schema =
      { pool := { poolId := reg.nextPoolId, schema := schema, readyDBs := [],
                  queueCap := F.initialPoolSize, dropped := [], created := [], nextID := 0 },
        tasksSpawned := F.initialPoolSize, fatal := none } := by
    unfold start
    simp [hl]
  have hlook : (reg.insert name (start F reg.nextPoolId schema).pool).lookup name
      = some (start F reg.nextPoolId schema).pool :=
    Registry.lookup_insert_self _ _ _ hn
  unfold pristineDBs
  simp only [hn, hs] at hlook ⊢
  simp only [hlook, schemaPtrNe_self, Bool.and_false]
  rfl

/-- A call that creates the pool while the process label is empty dies
with the configuration error, after the pool object was registered. -/
theorem pristineDBs_fresh_nolabel (F : Flags) (reg : Registry) (name : String)
    (schema : Option Schema) (hn : reg.lookup name = none) (hl : F.label = "") :
    pristineDBs F reg name schema =
      { reg := reg.insert name (start F reg.nextPoolId schema).pool,
        outcome := .fatal .ConfigError,
        tasksSpawned := 0,
        poolConstructed := true,
        usedPoolId := none } := by
  have hs : (start F reg.nextPoolId schema).fatal = some .ConfigError := by
    unfold start
    simp [hl]
  have hs2 : (start F reg.nextPoolId schema).tasksSpawned = 0 := by
    unfold start
    simp [hl]
  unfold pristineDBs
  simp only [hn, hs, hs2]

end Testdb

namespace Testdb

/-- C1: invoking `prepareDBs` twice with the same fresh identity and
`drop = create = true` performs the drop operation exactly once and the
create operation exactly once across both invocations, while the
truncate operation runs on each invocation exactly when that
invocation's truncate flag is set. -/
theorem prepareDBs_twice_idempotent
    (dropped created : List Int) (id : Int) (mdb : DBHandle) (t1 t2 : Bool)
    (hd : dropped.contains id = false) (hc : created.contains id = false)
    (hdrop : mdb.dropOK = true) (hcreate : mdb.createOK = true)
    (htrunc : mdb.truncateOK = true) :
    (prepareDBs dropped created id mdb true true t1).drops
      + (prepareDBs (prepareDBs dropped created id mdb true true t1).dropped
          (prepareDBs dropped created id mdb true true t1).created id mdb true true t2).drops = 1
    ∧ (prepareDBs dropped created id mdb true true t1).creates
      + (prepareDBs (prepareDBs dropped created id mdb true true t1).dropped
          (prepareDBs dropped created id mdb true true t1).created id mdb true true t2).creates = 1
    ∧ (prepareDBs dropped created id mdb true true t1).truncs = (if t1 then 1 else 0)
    ∧ (prepareDBs (prepareDBs dropped created id mdb true true t1).dropped
        (prepareDBs dropped created id mdb true true t1).created id mdb true true t2).truncs
      = (if t2 then 1 else 0) := by
  simp only [prepareDBs, prepareDBsCreate, prepareDBsTrunc, hd, hc, hdrop, hcreate, htrunc,
    Bool.not_false, Bool.and_true, List.contains_cons, beq_self_eq_true, Bool.true_or, Bool.not_true,
    Bool.and_false, if_true, if_false, Bool.true_and]
  cases t1 <;> cases t2 <;> simp

/-- Witness for C1 at a concrete input. -/
theorem prepareDBs_twice_idempotent_witness :
    ([] : List Int).contains 1 = false
    ∧ (prepareDBs [] [] 1 ⟨true, true, true, "ds"⟩ true true true).drops
      + (prepareDBs (prepareDBs [] [] 1 ⟨true, true, true, "ds"⟩ true true true).dropped
          (prepareDBs [] [] 1 ⟨true, true, true, "ds"⟩ true true true).created
          1 ⟨true, true, true, "ds"⟩ true true false).drops = 1 := by
  refine ⟨by decide, ?_⟩
  exact (prepareDBs_twice_idempotent [] [] 1 ⟨true, true, true, "ds"⟩ true false
    (by decide) (by decide) rfl rfl rfl).1

/-- C2: on an existing pool, a call with a non-nil schema pointer other
than the bound one dies with the schema-mismatch error, while a call
with nil or with the bound schema pointer never produces that error and,
when the ready channel holds a handle, returns that pool's first queued
handle. -/
theorem pristineDBs_schema_binding (F : Flags) (reg : Registry) (name : String)
    (b : PoolState) (hb : reg.lookup name = some b) :
    (∀ s : Schema, schemaPtrNe b.schema (some s) = true →
        (pristineDBs F reg name (some s)).outcome = .fatal .SchemaMismatch)
    ∧ ((pristineDBs F reg name none).outcome ≠ .fatal .SchemaMismatch)
    ∧ (∀ s : Schema, schemaPtrNe b.schema (some s) = false →
        (pristineDBs F reg name (some s)).outcome ≠ .fatal .SchemaMismatch)
    ∧ (∀ h t, b.readyDBs = h :: t →
        (pristineDBs F reg name none).outcome = .ok h
        ∧ ∀ s : Schema, schemaPtrNe b.schema (some s) = false →
            (pristineDBs F reg name (some s)).outcome = .ok h) := by
  refine ⟨?_, ?_, ?_, ?_⟩
  · intro s hs
    rw [pristineDBs_existing F reg name (some s) b hb]
    simp [hs]
  · rw [pristineDBs_existing F reg name none b hb]
    simp only [Option.isSome_none, Bool.false_and, Bool.false_eq_true, if_false]
    cases b.readyDBs <;> simp
  · intro s hs
    rw [pristineDBs_existing F reg name (some s) b hb]
    simp only [hs, Bool.and_false, Bool.false_eq_true, if_false]
    cases b.readyDBs <;> simp
  · intro h t ht
    constructor
    · rw [pristineDBs_existing F reg name none b hb]
      simp [ht]
    · intro s hs
      rw [pristineDBs_existing F reg name (some s) b hb]
      simp [hs, ht]

/-- Witness for C2 at a concrete registry holding one pool. -/
theorem pristineDBs_schema_binding_witness :
    reg1.lookup "pkgA" = some pool0
    ∧ schemaPtrNe pool0.schema (some s2) = true
    ∧ (pristineDBs F0 reg1 "pkgA" (some s2)).outcome = .fatal .SchemaMismatch
    ∧ (pristineDBs F0 reg1 "pkgA" none).outcome = .ok h0 := by
  refine ⟨by decide, by decide, ?_, ?_⟩
  · exact (pristineDBs_schema_binding F0 reg1 "pkgA" pool0 (by decide)).1 s2 (by decide)
  · exact ((pristineDBs_schema_binding F0 reg1 "pkgA" pool0 (by decide)).2.2.2
      h0 [] (by decide)).1

/-- C10: schema compatibility is pointer identity, not structural
equality: a schema structurally equal to the bound one but at a
different address is rejected with the schema-mismatch error. -/
theorem pristineDBs_pointer_identity (F : Flags) (reg : Registry) (name : String)
    (b : PoolState) (ba v : Nat) (hb : reg.lookup name = some b)
    (hbs : b.schema = some ⟨ba, v⟩) :
    ∀ a2 : Nat, a2 ≠ ba →
      (pristineDBs F reg name (some ⟨a2, v⟩)).outcome = .fatal .SchemaMismatch := by
  intro a2 ha
  rw [pristineDBs_existing F reg name (some ⟨a2, v⟩) b hb]
  have hs : schemaPtrNe b.schema (some ⟨a2, v⟩) = true := by
    rw [hbs]
    simp [schemaPtrNe, bne]
    exact fun heq => ha heq.symm
  simp [hs]

/-- Witness for C10: `s2` has the same structural value as the bound
`s1` (both `7`) but a different address. -/
theorem pristineDBs_pointer_identity_witness :
    s1.val = s2.val
    ∧ (pristineDBs F0 reg1 "pkgA" (some ⟨2, 7⟩)).outcome = .fatal .SchemaMismatch := by
  refine ⟨rfl, ?_⟩
  exact pristineDBs_pointer_identity F0 reg1 "pkgA" pool0 1 7 (by decide) rfl 2 (by decide)

/-- C4 counterexample: a call with a mismatching schema on an existing
pool ends in the schema-mismatch fatal error, which is neither a handle
from the ready-queue nor the provision-timeout error, so `pristineDBs`
has a third outcome. -/
theorem pristineDBs_third_outcome :
    (pristineDBs F0 reg1 "pkgA" (some s2)).outcome = .fatal .SchemaMismatch
    ∧ ¬((∃ h : DBHandle, (pristineDBs F0 reg1 "pkgA" (some s2)).outcome = .ok h)
        ∨ ∃ t : Nat, (pristineDBs F0 reg1 "pkgA" (some s2)).outcome
            = .fatal (.ProvisionTimeout t)) := by
  have hout : (pristineDBs F0 reg1 "pkgA" (some s2)).outcome = .fatal .SchemaMismatch := by
    decide
  refine ⟨hout, ?_⟩
  rw [hout]
  rintro (⟨h, hh⟩ | ⟨t, hh⟩) <;> simp at hh

/-- C4 amended: every acquisition call that passes pool creation (label
set when a pool must be created) and the schema-compatibility check
either returns a handle taken from the ready-queue or dies with the
provision-timeout error carrying the configured 45-second timeout. -/
theorem pristineDBs_wait_outcome (F : Flags) (reg : Registry) (name : String)
    (schema : Option Schema)
    (h1 : reg.lookup name = none → F.label ≠ "")
    (h2 : ∀ b, reg.lookup name = some b →
        (schema.isSome && schemaPtrNe b.schema schema) = false) :
    timeoutSeconds = 45
    ∧ ((∃ b hd t, reg.lookup name = some b ∧ b.readyDBs = hd :: t
          ∧ (pristineDBs F reg name schema).outcome = .ok hd)
      ∨ (pristineDBs F reg name schema).outcome
          = .fatal (.ProvisionTimeout 45)) := by
  refine ⟨rfl, ?_⟩
  cases hb : reg.lookup name with
  | none =>
    right
    rw [pristineDBs_fresh F reg name schema hb (h1 hb)]
    rfl
  | some b =>
    rw [pristineDBs_existing F reg name schema b hb]
    rw [if_neg (by simp [h2 b hb])]
    cases hq : b.readyDBs with
    | nil => right; rfl
    | cons hd t =>
      left
      exact ⟨b, hd, t, rfl, hq, rfl⟩

/-- Witness for the amended C4 at a concrete compatible call. -/
theorem pristineDBs_wait_outcome_witness :
    timeoutSeconds = 45
    ∧ ((∃ b hd t, reg1.lookup "pkgA" = some b ∧ b.readyDBs = hd :: t
          ∧ (pristineDBs F0 reg1 "pkgA" none).outcome = .ok hd)
      ∨ (pristineDBs F0 reg1 "pkgA" none).outcome
          = .fatal (.ProvisionTimeout 45)) := by
  exact pristineDBs_wait_outcome F0 reg1 "pkgA" none
    (fun _ => by decide)
    (fun b hb => by
      rw [(by decide : reg1.lookup "pkgA" = some pool0)] at hb
      injection hb with hb2
      subst hb2
      decide)

/-- C7: creating a pool launches exactly `initialPoolSize` background
replenishment tasks and the ready channel's capacity is
`initialPoolSize`; every successful acquisition call on an existing pool
schedules exactly one additional replenishment task; a creating call
spawns the initial batch plus its own single task. -/
theorem pool_replenishment_counts (F : Flags) (hl : F.label ≠ "") :
    (∀ pid0 : Nat, ∀ s : Option Schema,
        (start F pid0 s).tasksSpawned = F.initialPoolSize
        ∧ (start F pid0 s).pool.queueCap = F.initialPoolSize)
    ∧ (∀ reg name sch b h, reg.lookup name = some b →
        (pristineDBs F reg name sch).outcome = .ok h →
        (pristineDBs F reg name sch).tasksSpawned = 1)
    ∧ (∀ reg name sch, reg.lookup name = none →
        (pristineDBs F reg name sch).tasksSpawned = F.initialPoolSize + 1) := by
  refine ⟨?_, ?_, ?_⟩
  · intro pid0 s
    unfold start
    simp [hl]
  · intro reg name sch b h hb hok
    rw [pristineDBs_existing F reg name sch b hb] at hok ⊢
    by_cases hc : (sch.isSome && schemaPtrNe b.schema sch) = true
    · rw [if_pos hc] at hok
      simp at hok
    · rw [if_neg hc]
      cases b.readyDBs <;> rfl
  · intro reg name sch hn
    rw [pristineDBs_fresh F reg name sch hn hl]

/-- A `pristineDBs` call never removes or replaces a registered pool:
any name registered with construction token `i` before the call is still
registered with token `i` afterwards. -/
theorem pristineDBs_keeps_lookupId (F : Flags) (reg : Registry) (name : String)
    (s : Option Schema) (m : String) (i : Nat) (h : reg.lookupId m = some i) :
    ((pristineDBs F reg name s).reg).lookupId m = some i := by
  cases hb : reg.lookup name with
  | some b =>
    rw [pristineDBs_existing F reg name s b hb]
    by_cases hc : (s.isSome && schemaPtrNe b.schema s) = true
    · rw [if_pos hc]; exact h
    · rw [if_neg hc]
      cases hq : b.readyDBs with
      | nil => exact h
      | cons hd t =>
        by_cases hm : name = m
        · subst hm
          unfold Registry.lookupId at h ⊢
          rw [Registry.lookup_setPool_self reg name b _ hb]
          rw [hb] at h
          simpa using h
        · unfold Registry.lookupId at h ⊢
          rw [Registry.lookup_setPool_of_ne reg name m _ hm]
          exact h
  | none =>
    have hm : name ≠ m := by
      intro he
      subst he
      unfold Registry.lookupId at h
      rw [hb] at h
      simp at h
    by_cases hl : F.label = ""
    · rw [pristineDBs_fresh_nolabel F reg name s hb hl]
      unfold Registry.lookupId at h ⊢
      rw [Registry.lookup_insert_of_ne reg name m _ hm]
      exact h
    · rw [pristineDBs_fresh F reg name s hb hl]
      unfold Registry.lookupId at h ⊢
      rw [Registry.lookup_insert_of_ne reg name m _ hm]
      exact h

/-- A call that finds an existing pool constructs nothing and operates
on the registered pool object. -/
theorem pristineDBs_existing_constructed (F : Flags) (reg : Registry)
    (name : String) (s : Option Schema) (b : PoolState)
    (hb : reg.lookup name = some b) :
    (pristineDBs F reg name s).poolConstructed = false
    ∧ (pristineDBs F reg name s).usedPoolId = some b.poolId := by
  rw [pristineDBs_existing F reg name s b hb]
  by_cases hc : (s.isSome && schemaPtrNe b.schema s) = true
  · rw [if_pos hc]; exact ⟨rfl, rfl⟩
  · rw [if_neg hc]
    cases b.readyDBs <;> exact ⟨rfl, rfl⟩

/-- A call that finds no pool constructs exactly one pool object and
registers it under the call's name with a fresh construction token. -/
theorem pristineDBs_fresh_constructed (F : Flags) (reg : Registry)
    (name : String) (s : Option Schema) (hn : reg.lookup name = none) :
    (pristineDBs F reg name s).poolConstructed = true
    ∧ ((pristineDBs F reg name s).reg).lookupId name = some reg.nextPoolId := by
  have hpid : (start F reg.nextPoolId s).pool.poolId = reg.nextPoolId := by
    unfold start
    by_cases hl : F.label = "" <;> simp [hl]
  have hlook : ∀ p : PoolState, (reg.insert name p).lookupId name = some p.poolId := by
    intro p
    unfold Registry.lookupId
    rw [Registry.lookup_insert_self reg name p hn]
    rfl
  by_cases hl : F.label = ""
  · rw [pristineDBs_fresh_nolabel F reg name s hn hl]
    exact ⟨rfl, by rw [hlook, hpid]⟩
  · rw [pristineDBs_fresh F reg name s hn hl]
    exact ⟨rfl, by rw [hlook, hpid]⟩

/-- Registered construction tokens survive any whole sequence of calls. -/
theorem runCalls_keeps_lookupId (F : Flags) :
    ∀ (calls : List (String × Option Schema)) (reg : Registry) (m : String) (i : Nat),
      reg.lookupId m = some i → (runCalls F reg calls).lookupId m = some i := by
  intro calls
  induction calls with
  | nil => intro reg m i h; exact h
  | cons c rest ih =>
    intro reg m i h
    exact ih _ m i (pristineDBs_keeps_lookupId F reg c.1 c.2 m i h)

/-- Once a pool is registered under `name`, no later call sequence
constructs another pool for `name`. -/
theorem constructionsFor_of_present (F : Flags) (name : String) :
    ∀ (calls : List (String × Option Schema)) (reg : Registry) (i : Nat),
      reg.lookupId name = some i → constructionsFor F name reg calls = 0 := by
  intro calls
  induction calls with
  | nil => intro reg i _; rfl
  | cons c rest ih =>
    intro reg i h
    unfold constructionsFor
    have hcontrib :
        (if (pristineDBs F reg c.1 c.2).poolConstructed && c.1 == name then 1 else 0) = 0 := by
      by_cases hcn : c.1 = name
      · subst hcn
        have hsome : ∃ b, reg.lookup c.1 = some b := by
          unfold Registry.lookupId at h
          cases hx : reg.lookup c.1 with
          | none => rw [hx] at h; simp at h
          | some b => exact ⟨b, rfl⟩
        obtain ⟨b, hb⟩ := hsome
        rw [(pristineDBs_existing_constructed F reg c.1 c.2 b hb).1]
        simp
      · have : (c.1 == name) = false := by simpa using hcn
        simp [this]
    rw [hcontrib, Nat.zero_add]
    exact ih _ i (pristineDBs_keeps_lookupId F reg c.1 c.2 name i h)

/-- Across any call sequence, at most one pool is constructed per name. -/
theorem constructionsFor_le_one (F : Flags) (name : String) :
    ∀ (calls : List (String × Option Schema)) (reg : Registry),
      constructionsFor F name reg calls ≤ 1 := by
  intro calls
  induction calls with
  | nil => intro reg; exact Nat.zero_le 1
  | cons c rest ih =>
    intro reg
    unfold constructionsFor
    by_cases hc : ((pristineDBs F reg c.1 c.2).poolConstructed && c.1 == name) = true
    · have hcons : (pristineDBs F reg c.1 c.2).poolConstructed = true :=
        (Bool.and_eq_true _ _ |>.mp hc).1
      have hcn : c.1 = name := by
        have := (Bool.and_eq_true _ _ |>.mp hc).2
        simpa using this
      subst hcn
      have hn : reg.lookup c.1 = none := by
        cases hx : reg.lookup c.1 with
        | none => rfl
        | some b =>
          have := (pristineDBs_existing_constructed F reg c.1 c.2 b hx).1
          rw [this] at hcons
          cases hcons
      have hreg := (pristineDBs_fresh_constructed F reg c.1 c.2 hn).2
      have hrest : constructionsFor F c.1 (pristineDBs F reg c.1 c.2).reg rest = 0 :=
        constructionsFor_of_present F c.1 rest _ reg.nextPoolId hreg
      simp [hc, hrest, hcons]
    · rw [if_neg hc, Nat.zero_add]
      exact ih _

/-- C3: per pool name, at most one pool object is ever constructed and
registered; every call on an existing pool constructs nothing and
operates on the registered pool object; the registry is insertion-only
(a registered entry keeps its construction token through every call and
every call sequence). -/
theorem pristineDBs_registry_once_only (F : Flags) :
    (∀ reg name s m i, reg.lookupId m = some i →
        ((pristineDBs F reg name s).reg).lookupId m = some i)
    ∧ (∀ reg name s b, reg.lookup name = some b →
        (pristineDBs F reg name s).poolConstructed = false
        ∧ (pristineDBs F reg name s).usedPoolId = some b.poolId)
    ∧ (∀ reg name s, reg.lookup name = none →
        (pristineDBs F reg name s).poolConstructed = true
        ∧ ((pristineDBs F reg name s).reg).lookupId name = some reg.nextPoolId)
    ∧ (∀ calls reg m i, reg.lookupId m = some i →
        (runCalls F reg calls).lookupId m = some i)
    ∧ (∀ name calls reg, constructionsFor F name reg calls ≤ 1) := by
  refine ⟨?_, ?_, ?_, ?_, ?_⟩
  · intro reg name s m i h; exact pristineDBs_keeps_lookupId F reg name s m i h
  · intro reg name s b hb; exact pristineDBs_existing_constructed F reg name s b hb
  · intro reg name s hn; exact pristineDBs_fresh_constructed F reg name s hn
  · intro calls reg m i h; exact runCalls_keeps_lookupId F calls reg m i h
  · intro name calls reg; exact constructionsFor_le_one F name calls reg

/-- Witness for C3 at a concrete two-call sequence. -/
theorem pristineDBs_registry_once_only_witness :
    (pristineDBs F0 reg1 "pkgA" none).poolConstructed = false
    ∧ constructionsFor F0 "pkgA" reg0 [("pkgA", none), ("pkgA", none)] ≤ 1 := by
  constructor
  · exact ((pristineDBs_registry_once_only F0).2.1 reg1 "pkgA" none pool0 (by decide)).1
  · exact (pristineDBs_registry_once_only F0).2.2.2.2 "pkgA"
      [("pkgA", none), ("pkgA", none)] reg0

/-- C5: in a provisioning run, a failure of the external `createdb`
command is swallowed (the run's result does not depend on it at all),
while a failure of the subsequent open step kills the process with the
open-failed error after exactly one open attempt — there is no retry. -/
theorem prepareNewDB_error_policy (F : Flags) (b : PoolState) (poolName : String)
    (env : ProvEnv) :
    (prepareNewDB F b poolName { env with createdbFails := true }
      = prepareNewDB F b poolName { env with createdbFails := false })
    ∧ (∀ s, b.schema = some s → env.openResult = none →
        (prepareNewDB F b poolName env).outcome = .fatal .OpenFailed
        ∧ (prepareNewDB F b poolName env).openCalls = 1) := by
  constructor
  · rfl
  · intro s hs ho
    unfold prepareNewDB
    simp [hs, ho]

/-- Witness for C5: a concrete run with a failing open step. -/
theorem prepareNewDB_error_policy_witness :
    (prepareNewDB F0 pool0 "pkgA" ⟨false, none, 42⟩).outcome = .fatal .OpenFailed
    ∧ (prepareNewDB F0 pool0 "pkgA" ⟨false, none, 42⟩).openCalls = 1 :=
  (prepareNewDB_error_policy F0 pool0 "pkgA" ⟨false, none, 42⟩).2 s1 rfl rfl

/-- A provisioning run never changes the pool's schema binding. -/
theorem prepareNewDB_pool_schema (F : Flags) (b : PoolState) (poolName : String)
    (env : ProvEnv) : (prepareNewDB F b poolName env).pool.schema = b.schema := by
  unfold prepareNewDB
  dsimp only
  repeat' split
  all_goals rfl

/-- A provisioning run advances the counter bit pattern by one, with
`int32` wraparound, in every branch. -/
theorem prepareNewDB_pool_nextID (F : Flags) (b : PoolState) (poolName : String)
    (env : ProvEnv) :
    (prepareNewDB F b poolName env).pool.nextID = (b.nextID + 1) % 2 ^ 32 := by
  unfold prepareNewDB
  dsimp only
  repeat' split
  all_goals rfl

/-- The identity a run allocates is the incremented bit pattern read as
a signed `int32`. -/
theorem prepareNewDB_id (F : Flags) (b : PoolState) (poolName : String)
    (env : ProvEnv) :
    (prepareNewDB F b poolName env).id = int32OfBits ((b.nextID + 1) % 2 ^ 32) := by
  unfold prepareNewDB
  dsimp only
  repeat' split
  all_goals rfl

/-- A run on a pool bound to a nil schema panics dereferencing
`*b.schema` before the open step is ever reached. -/
theorem prepareNewDB_nil_schema (F : Flags) (b : PoolState) (poolName : String)
    (env : ProvEnv) (h : b.schema = none) :
    (prepareNewDB F b poolName env).outcome = .panicNilSchema
    ∧ (prepareNewDB F b poolName env).openCalls = 0 := by
  unfold prepareNewDB
  simp [h]

theorem runPool_schema (F : Flags) (poolName : String) (env : ProvEnv)
    (b : PoolState) : ∀ k, (runPool F poolName env b k).schema = b.schema := by
  intro k
  induction k with
  | zero => rfl
  | succ k ih =>
    show (prepareNewDB F (runPool F poolName env b k) poolName env).pool.schema = b.schema
    rw [prepareNewDB_pool_schema, ih]

/-- C9: a first call with a nil schema creates the pool with no
configuration or schema-mismatch error, and every provisioning run on
the resulting pool panics on the nil `b.schema` dereference instead of
producing any error of the fatal-error taxonomy. -/
theorem nil_schema_pool_panics (F : Flags) (reg : Registry) (name : String)
    (hl : F.label ≠ "") (hn : reg.lookup name = none) :
    ((pristineDBs F reg name none).outcome ≠ .fatal .ConfigError
      ∧ (pristineDBs F reg name none).outcome ≠ .fatal .SchemaMismatch)
    ∧ (pristineDBs F reg name none).poolConstructed = true
    ∧ (∃ b, ((pristineDBs F reg name none).reg).lookup name = some b
        ∧ b.schema = none
        ∧ ∀ (env : ProvEnv) (k : Nat),
            (prepareNewDB F (runPool F name env b k) name env).outcome = .panicNilSchema
            ∧ ∀ e, (prepareNewDB F (runPool F name env b k) name env).outcome
                ≠ .fatal e) := by
  have hbs : (start F reg.nextPoolId (none : Option Schema)).pool.schema = none := by
    unfold start
    simp [hl]
  rw [pristineDBs_fresh F reg name none hn hl]
  refine ⟨⟨by simp, by simp⟩, rfl, ?_⟩
  refine ⟨(start F reg.nextPoolId none).pool, Registry.lookup_insert_self reg name _ hn, hbs, ?_⟩
  intro env k
  have hks : (runPool F name env (start F reg.nextPoolId none).pool k).schema = none := by
    rw [runPool_schema, hbs]
  have hout := prepareNewDB_nil_schema F _ name env hks
  exact ⟨hout.1, fun e => by rw [hout.1]; simp⟩

/-- Witness for C9 at a concrete first call on an empty registry. -/
theorem nil_schema_pool_panics_witness :
    (pristineDBs F0 reg0 "pkgA" none).outcome ≠ .fatal .ConfigError
    ∧ (pristineDBs F0 reg0 "pkgA" none).poolConstructed = true := by
  have T := nil_schema_pool_panics F0 reg0 "pkgA" (by decide) (by decide)
  exact ⟨T.1.1, T.2.1⟩

theorem runPool_nextID (F : Flags) (poolName : String) (env : ProvEnv)
    (b : PoolState) (hb : b.nextID < 2 ^ 32) :
    ∀ k, (runPool F poolName env b k).nextID = (b.nextID + k) % 2 ^ 32 := by
  have hM : (2 : Nat) ^ 32 = 4294967296 := by norm_num
  intro k
  induction k with
  | zero =>
    show b.nextID = (b.nextID + 0) % 2 ^ 32
    rw [Nat.add_zero, Nat.mod_eq_of_lt hb]
  | succ k ih =>
    show (prepareNewDB F (runPool F poolName env b k) poolName env).pool.nextID
      = (b.nextID + (k + 1)) % 2 ^ 32
    rw [prepareNewDB_pool_nextID, ih, hM]
    omega

/-- Closed form for the identity allocated by the `k`-th run. -/
theorem nthRunId_eq (F : Flags) (poolName : String) (env : ProvEnv)
    (b : PoolState) (hb : b.nextID < 2 ^ 32) (k : Nat) :
    nthRunId F poolName env b k = int32OfBits ((b.nextID + k + 1) % 2 ^ 32) := by
  have hM : (2 : Nat) ^ 32 = 4294967296 := by norm_num
  unfold nthRunId
  rw [prepareNewDB_id, runPool_nextID F poolName env b hb k]
  congr 1
  rw [hM]
  omega

theorem int32OfBits_inj (p q : Nat) (hp : p < 2 ^ 32) (hq : q < 2 ^ 32)
    (h : int32OfBits p = int32OfBits q) : p = q := by
  have h31 : (2 : Nat) ^ 31 = 2147483648 := by norm_num
  unfold int32OfBits at h
  by_cases h1 : p < 2 ^ 31 <;> by_cases h2 : q < 2 ^ 31 <;>
    simp only [h1, h2, if_true, if_false, if_pos, if_neg, not_false_iff] at h <;>
    rw [h31] at h1 h2 <;>
    omega

/-- C6 counterexample: the `int32` counter wraps, so run number `2^32`
allocates the same identity as run number `0` — identities are not
pairwise distinct across all runs. -/
theorem prepareNewDB_identity_wraps :
    nthRunId F0 "pkgA" env0 poolNil 0 = nthRunId F0 "pkgA" env0 poolNil 4294967296
    ∧ (0 : Nat) ≠ 4294967296 := by
  have hb : poolNil.nextID < 2 ^ 32 := by norm_num [poolNil]
  constructor
  · rw [nthRunId_eq F0 "pkgA" env0 poolNil hb 0,
      nthRunId_eq F0 "pkgA" env0 poolNil hb 4294967296]
    norm_num [poolNil]
  · decide

/-- C6 amended: identities are allocated by atomically incrementing the
pool's `int32` counter, so they are pairwise distinct among the first
`2^32` runs and strictly increasing while the counter stays below
`2^31`; beyond that the counter wraps (run `2^32` reuses run `0`'s
identity), so distinctness and monotonicity do not extend to all runs. -/
theorem prepareNewDB_identities (F : Flags) (poolName : String) (env : ProvEnv)
    (b : PoolState) (hb : b.nextID = 0) :
    (∀ j k, j < k → k < 2 ^ 32 →
        nthRunId F poolName env b j ≠ nthRunId F poolName env b k)
    ∧ (∀ j k, j < k → k + 1 < 2 ^ 31 →
        nthRunId F poolName env b j < nthRunId F poolName env b k) := by
  have hM : (2 : Nat) ^ 32 = 4294967296 := by norm_num
  have h31 : (2 : Nat) ^ 31 = 2147483648 := by norm_num
  have hb' : b.nextID < 2 ^ 32 := by rw [hb]; norm_num
  constructor
  · intro j k hjk hk heq
    rw [nthRunId_eq F poolName env b hb' j, nthRunId_eq F poolName env b hb' k, hb] at heq
    have hj1 : (0 + j + 1) % 2 ^ 32 = j + 1 := by
      rw [hM]; omega
    have hpq := int32OfBits_inj _ _ (by rw [hM]; omega) (by rw [hM]; omega) heq
    rw [hM] at hpq
    omega
  · intro j k hjk hk
    rw [nthRunId_eq F poolName env b hb' j, nthRunId_eq F poolName env b hb' k, hb]
    have hj : (0 + j + 1) % 2 ^ 32 = j + 1 := by rw [hM]; omega
    have hk' : (0 + k + 1) % 2 ^ 32 = k + 1 := by rw [hM]; omega
    rw [hj, hk']
    unfold int32OfBits
    rw [if_pos (by rw [h31]; omega), if_pos (by rw [h31]; omega)]
    exact_mod_cast Nat.succ_lt_succ hjk

/-- Witness for the amended C6: the first two runs get distinct,
increasing identities. -/
theorem prepareNewDB_identities_witness :
    nthRunId F0 "pkgA" env0 poolNil 0 ≠ nthRunId F0 "pkgA" env0 poolNil 1
    ∧ nthRunId F0 "pkgA" env0 poolNil 0 < nthRunId F0 "pkgA" env0 poolNil 1 := by
  have T := prepareNewDB_identities F0 "pkgA" env0 poolNil rfl
  exact ⟨T.1 0 1 (by norm_num) (by norm_num), T.2 0 1 (by norm_num) (by norm_num)⟩

/-- Witness for C7 at concrete calls. -/
theorem pool_replenishment_counts_witness :
    (start F0 0 (some s1)).tasksSpawned = 8
    ∧ (start F0 0 (some s1)).pool.queueCap = 8
    ∧ (pristineDBs F0 reg1 "pkgA" none).tasksSpawned = 1
    ∧ (pristineDBs F0 reg0 "pkgA" none).tasksSpawned = 9 := by
  refine ⟨?_, ?_, ?_, ?_⟩
  · exact ((pool_replenishment_counts F0 (by decide)).1 0 (some s1)).1
  · exact ((pool_replenishment_counts F0 (by decide)).1 0 (some s1)).2
  · exact (pool_replenishment_counts F0 (by decide)).2.1 reg1 "pkgA" none pool0 h0
      (by decide) (by decide)
  · exact (pool_replenishment_counts F0 (by decide)).2.2 reg0 "pkgA" none (by decide)

/-! ### Decimal-string lemmas for the database-name derivation -/

theorem digitChar_fin_inj : ∀ a b : Fin 10, Nat.digitChar a = Nat.digitChar b → a = b := by
  decide

theorem digitChar_fin_ne_dash : ∀ a : Fin 10, Nat.digitChar a ≠ '-' := by
  decide

theorem digitChar_inj_of_lt (a b : Nat) (ha : a < 10) (hb : b < 10)
    (h : Nat.digitChar a = Nat.digitChar b) : a = b := by
  have := digitChar_fin_inj ⟨a, ha⟩ ⟨b, hb⟩ h
  simpa using congrArg Fin.val this

theorem digitChar_ne_dash_of_lt (a : Nat) (ha : a < 10) : Nat.digitChar a ≠ '-' :=
  digitChar_fin_ne_dash ⟨a, ha⟩

theorem toDigitsCore_eq_digits :
    ∀ (f n : Nat) (prev : List Char), 0 < n → n < f →
      Nat.toDigitsCore 10 f n prev
        = ((Nat.digits 10 n).map Nat.digitChar).reverse ++ prev := by
  intro f
  induction f with
  | zero => intro n prev _ hf; exact absurd hf (Nat.not_lt_zero n)
  | succ f ih =>
    intro n prev h0 hf
    rw [show Nat.toDigitsCore 10 (f+1) n prev
        = if n / 10 = 0 then Nat.digitChar (n % 10) :: prev
          else Nat.toDigitsCore 10 f (n / 10) (Nat.digitChar (n % 10) :: prev) from rfl]
    by_cases hdiv : n / 10 = 0
    · rw [if_pos hdiv, Nat.digits_def' (by norm_num : (1:Nat) < 10) h0, hdiv]
      simp
    · rw [if_neg hdiv]
      have h0' : 0 < n / 10 := Nat.pos_of_ne_zero hdiv
      have hf' : n / 10 < f := by
        have : n / 10 < n := Nat.div_lt_self h0 (by norm_num)
        omega
      rw [ih (n / 10) _ h0' hf', Nat.digits_def' (by norm_num : (1:Nat) < 10) h0]
      simp

theorem natRepr_data (n : Nat) :
    (Nat.repr n).data
      = if n = 0 then ['0'] else ((Nat.digits 10 n).map Nat.digitChar).reverse := by
  by_cases h : n = 0
  · subst h; rfl
  · rw [if_neg h]
    show (Nat.toDigits 10 n).asString.data = _
    unfold Nat.toDigits
    rw [toDigitsCore_eq_digits (n+1) n [] (Nat.pos_of_ne_zero h) (Nat.lt_succ_self n)]
    simp [List.asString]

theorem natRepr_chars (n : Nat) :
    ∀ c ∈ (Nat.repr n).data, ∃ d, d < 10 ∧ c = Nat.digitChar d := by
  rw [natRepr_data]
  by_cases h : n = 0
  · rw [if_pos h]
    intro c hc
    simp at hc
    exact ⟨0, by norm_num, by simp [hc, Nat.digitChar]⟩
  · rw [if_neg h]
    intro c hc
    rw [List.mem_reverse] at hc
    obtain ⟨d, hd, rfl⟩ := List.mem_map.mp hc
    exact ⟨d, Nat.digits_lt_base (by norm_num) hd, rfl⟩

theorem natRepr_no_dash (n : Nat) : '-' ∉ (Nat.repr n).data := by
  intro hmem
  obtain ⟨d, hd, hcd⟩ := natRepr_chars n '-' hmem
  exact digitChar_ne_dash_of_lt d hd hcd.symm

theorem natRepr_ne_nil (n : Nat) : (Nat.repr n).data ≠ [] := by
  rw [natRepr_data]
  by_cases h : n = 0
  · simp [h]
  · rw [if_neg h]
    simp [Nat.digits_ne_nil_iff_ne_zero, h]

theorem map_digitChar_inj :
    ∀ (l1 l2 : List Nat), (∀ x ∈ l1, x < 10) → (∀ x ∈ l2, x < 10) →
      l1.map Nat.digitChar = l2.map Nat.digitChar → l1 = l2 := by
  intro l1
  induction l1 with
  | nil =>
    intro l2 _ _ h
    cases l2 with
    | nil => rfl
    | cons b l2' => simp at h
  | cons a l ih =>
    intro l2 h1 h2 h
    cases l2 with
    | nil => simp at h
    | cons b l2' =>
      simp only [List.map_cons, List.cons.injEq] at h
      have ha := h1 a (by simp)
      have hb := h2 b (by simp)
      rw [digitChar_inj_of_lt a b ha hb h.1,
        ih l2' (fun x hx => h1 x (by simp [hx])) (fun x hx => h2 x (by simp [hx])) h.2]

theorem natRepr_inj (a b : Nat) (h : Nat.repr a = Nat.repr b) : a = b := by
  have hd : (Nat.repr a).data = (Nat.repr b).data := by rw [h]
  rw [natRepr_data, natRepr_data] at hd
  have hofd : ∀ m : Nat, (Nat.digits 10 m).map Nat.digitChar = ['0'] → m = 0 := by
    intro m hm
    have hdig : Nat.digits 10 m = [0] := by
      apply map_digitChar_inj _ _ (fun x hx => Nat.digits_lt_base (by norm_num) hx)
        (fun x hx => by simp at hx; omega)
      simpa [Nat.digitChar] using hm
    have := congrArg (Nat.ofDigits 10) hdig
    rw [Nat.ofDigits_digits] at this
    simpa [Nat.ofDigits] using this
  by_cases ha : a = 0 <;> by_cases hb : b = 0
  · rw [ha, hb]
  · rw [if_pos ha, if_neg hb] at hd
    exfalso
    apply hb
    apply hofd
    have := congrArg List.reverse hd
    simpa using this.symm
  · rw [if_neg ha, if_pos hb] at hd
    exfalso
    apply ha
    apply hofd
    have := congrArg List.reverse hd
    simpa using this
  · rw [if_neg ha, if_neg hb] at hd
    have h2 : (Nat.digits 10 a).map Nat.digitChar = (Nat.digits 10 b).map Nat.digitChar := by
      have := congrArg List.reverse hd
      simpa using this
    have h3 := map_digitChar_inj _ _
      (fun x hx => Nat.digits_lt_base (by norm_num) hx)
      (fun x hx => Nat.digits_lt_base (by norm_num) hx) h2
    have := congrArg (Nat.ofDigits 10) h3
    rwa [Nat.ofDigits_digits, Nat.ofDigits_digits] at this

theorem intRepr_inj (a b : Int) (h : Int.repr a = Int.repr b) : a = b := by
  cases a with
  | ofNat m =>
    cases b with
    | ofNat k =>
      rw [natRepr_inj m k h]
    | negSucc k =>
      exfalso
      apply natRepr_no_dash m
      have hd := congrArg String.data h
      show ('-' : Char) ∈ (Nat.repr m).data
      rw [show Int.repr (Int.ofNat m) = Nat.repr m from rfl,
        show Int.repr (Int.negSucc k) = "-" ++ Nat.repr (k+1) from rfl] at hd
      rw [hd, String.data_append]
      simp
  | negSucc m =>
    cases b with
    | ofNat k =>
      exfalso
      apply natRepr_no_dash k
      have hd := congrArg String.data h
      rw [show Int.repr (Int.ofNat k) = Nat.repr k from rfl,
        show Int.repr (Int.negSucc m) = "-" ++ Nat.repr (m+1) from rfl] at hd
      rw [← hd, String.data_append]
      simp
    | negSucc k =>
      have hd := congrArg String.data h
      rw [show Int.repr (Int.negSucc m) = "-" ++ Nat.repr (m+1) from rfl,
        show Int.repr (Int.negSucc k) = "-" ++ Nat.repr (k+1) from rfl,
        String.data_append, String.data_append] at hd
      have : (Nat.repr (m+1)).data = (Nat.repr (k+1)).data :=
        List.append_cancel_left hd
      have hmk := natRepr_inj (m+1) (k+1) (String.ext this)
      have : m = k := by omega
      rw [this]

theorem dash_split_inj :
    ∀ (x1 x2 y1 y2 : List Char), '-' ∉ x1 → '-' ∉ x2 →
      x1 ++ '-' :: y1 = x2 ++ '-' :: y2 → x1 = x2 ∧ y1 = y2 := by
  intro x1
  induction x1 with
  | nil =>
    intro x2 y1 y2 _ h2 h
    cases x2 with
    | nil => simpa using h
    | cons c x2' =>
      simp only [List.nil_append, List.cons_append, List.cons.injEq] at h
      rw [← h.1] at h2
      simp at h2
  | cons c x1' ih =>
    intro x2 y1 y2 h1 h2 h
    cases x2 with
    | nil =>
      simp only [List.cons_append, List.nil_append, List.cons.injEq] at h
      rw [h.1] at h1
      simp at h1
    | cons d x2' =>
      simp only [List.cons_append, List.cons.injEq] at h
      obtain ⟨hcd, hrest⟩ := h
      have h1' : '-' ∉ x1' := fun hm => h1 (by simp [hm])
      have h2' : '-' ∉ x2' := fun hm => h2 (by simp [hm])
      obtain ⟨hx, hy⟩ := ih x2' y1 y2 h1' h2' hrest
      exact ⟨by rw [hcd, hx], hy⟩

theorem mkDBName_inj (p l : String) (id1 id2 : Int) (pid1 pid2 : Nat)
    (h : mkDBName p l id1 pid1 = mkDBName p l id2 pid2) :
    id1 = id2 ∧ pid1 = pid2 := by
  unfold mkDBName at h
  have hd := congrArg String.data h
  simp only [String.data_append, List.append_assoc] at hd
  have hd1 := List.append_cancel_left hd
  have hd2 := List.append_cancel_left hd1
  have hd3 := List.append_cancel_left hd2
  have hd4 := List.append_cancel_left hd3
  have hd5 := List.append_cancel_left hd4
  have hrev := congrArg List.reverse hd5
  simp only [List.reverse_append, List.reverse_cons, List.reverse_nil,
    List.nil_append, List.singleton_append, List.append_assoc] at hrev
  have hno1 : '-' ∉ ((toString pid1).data).reverse := by
    rw [List.mem_reverse]
    exact natRepr_no_dash pid1
  have hno2 : '-' ∉ ((toString pid2).data).reverse := by
    rw [List.mem_reverse]
    exact natRepr_no_dash pid2
  obtain ⟨hpidrev, hidrev⟩ := dash_split_inj _ _ _ _ hno1 hno2 hrev
  constructor
  · exact intRepr_inj id1 id2 (String.ext (List.reverse_injective hidrev))
  · exact natRepr_inj pid1 pid2 (String.ext (List.reverse_injective hpidrev))

/-- C8: `prepareNewDB` derives the external database name as a function
of exactly the pool name, process label, allocated identity and process
identifier, and that function is injective in (identity, pid): two runs
with different identities, or in processes with different pids, always
produce different names. -/
theorem dbname_unique (p l : String) :
    (∀ (F : Flags) (b : PoolState) (poolName : String) (env : ProvEnv),
        (prepareNewDB F b poolName env).dbname
          = mkDBName poolName F.label (prepareNewDB F b poolName env).id env.pid)
    ∧ (∀ (id1 id2 : Int) (pid : Nat), id1 ≠ id2 →
        mkDBName p l id1 pid ≠ mkDBName p l id2 pid)
    ∧ (∀ (id1 id2 : Int) (pid1 pid2 : Nat), pid1 ≠ pid2 →
        mkDBName p l id1 pid1 ≠ mkDBName p l id2 pid2) := by
  refine ⟨?_, ?_, ?_⟩
  · intro F b poolName env
    unfold prepareNewDB
    dsimp only
    repeat' split
    all_goals rfl
  · intro id1 id2 pid hne heq
    exact hne (mkDBName_inj p l id1 id2 pid pid heq).1
  · intro id1 id2 pid1 pid2 hne heq
    exact hne (mkDBName_inj p l id1 id2 pid1 pid2 heq).2

/-- Witness for C8: distinct identities and distinct pids give distinct
concrete names. -/
theorem dbname_unique_witness :
    mkDBName "pkgA" "svc" 1 5 ≠ mkDBName "pkgA" "svc" 2 5
    ∧ mkDBName "pkgA" "svc" 1 5 ≠ mkDBName "pkgA" "svc" 1 6 :=
  ⟨(dbname_unique "pkgA" "svc").2.1 1 2 5 (by decide),
    (dbname_unique "pkgA" "svc").2.2 1 1 5 6 (by decide)⟩

end Testdb
